import Mathlib

/-!
Shallow embedding of `src/game/sim.ts`, the simulation engine of the
elevator-dispatch game, together with proofs settling the specification
claims about it.

Modelling conventions:
* JS numbers that are always non-negative integers in the program
  (floor indices, capacities, passenger targets) are `Nat`;
  `score` and `timeRemaining`, which can go negative, are `Int`.
* The three `Math.random()` draws of a tick are abstracted into a `Rnd`
  record holding their integer outcomes (the Bernoulli arrival decision,
  the origin-floor draw, the target-floor draw, and the pool roll).
* A thrown JS error (the fatal passenger-roll error, or dereferencing an
  out-of-range array element) is modelled by `Option`: `none` is a crash.
  The `try`/`catch` blocks of `handleAction` are modelled by `Option`-valued
  validation functions (`goParse`, `dumpParse`, `closeParse`): `none` means
  the `catch` branch runs and appends the failure event.
* Event strings are reproduced verbatim from the source.
-/

-- --- Passenger types ---

inductive PassengerKind where
  | Passenger
  | Brick
  | VIP
  | Mechanic
deriving DecidableEq, Repr

structure Passenger where
  kind : PassengerKind
  targetFloor : Nat
deriving DecidableEq, Repr

def makePassenger (kind : PassengerKind) (targetFloor : Nat) : Passenger :=
  { kind := kind, targetFloor := targetFloor }

-- --- Core data structures ---

structure Elevator where
  floor : Nat
  doorsOpen : Bool
  goingTo : List Nat
  capacity : Nat
  passengers : List Passenger
deriving DecidableEq, Repr

structure Floor where
  passengers : List Passenger
deriving DecidableEq, Repr

/-- `arrivalRate` is a JS float in the source; it is only ever used as the
success probability of the per-tick Bernoulli arrival trial, whose outcome
is abstracted into `Rnd.arrive`, so we model it as a rational. -/
structure Config where
  arrivalRate : Rat
deriving DecidableEq, Repr

structure State where
  config : Config
  score : Int
  failed : Bool
  timeRemaining : Int
  floors : List Floor
  elevators : List Elevator
  events : List String
deriving DecidableEq, Repr

/-- The outcomes of the `Math.random()` draws made by one call to `update`:
`arrive` is `Math.random() < state.config.arrivalRate`;
`originFloor` is `Math.floor(Math.random() * state.floors.length)`;
`targetDraw` is `Math.floor(Math.random() * (state.floors.length - 1))`;
`roll` is `Math.floor(Math.random() * passengerPoolTotal)`. -/
structure Rnd where
  arrive : Bool
  originFloor : Nat
  targetDraw : Nat
  roll : Nat
deriving DecidableEq, Repr

-- --- Passenger pool ---

def passengerPool : List (PassengerKind × Nat) :=
  [(PassengerKind.Passenger, 10), (PassengerKind.Brick, 0),
   (PassengerKind.VIP, 3), (PassengerKind.Mechanic, 1)]

def passengerPoolTotal : Nat :=
  (passengerPool.map (fun kw => kw.2)).sum

/-- The weighted-draw walk of `update` (lines 163-170 of sim.ts): subtract
each weight from the roll until it is smaller than the current weight. -/
def drawKind : Nat → List (PassengerKind × Nat) → Option PassengerKind
  | _, [] => none
  | roll, (k, w) :: rest => if roll < w then some k else drawKind (roll - w) rest

-- --- Event strings ---

def dropMsg (i : Nat) : String :=
  "🎉 Elevator " ++ toString i ++ " dropped off a passenger."

def fullMsg (i : Nat) : String :=
  "⛔  Elevator " ++ toString i ++ " is now full."

def readyMsg (i : Nat) : String :=
  "❇️  Elevator " ++ toString i ++ " ready to move."

def vipMsg : String := "📈  +10 bonus score!"

def mechMsg : String := "⏳  +20 time gained!"

def brickMsg : String := "😞 -5 score from delivering brick."

def arrivalMsg (n : Nat) : String :=
  "‼️  New passenger waiting at floor " ++ toString n ++ "."

def timeoutMsg (sc : Int) : String :=
  "⌛ Out of time. Final score: " ++ toString sc

def goFailMsg : String :=
  "❌ Invalid \"go\" command, need <elevator>, <target floor>."

def dumpFailMsg (s : State) : String :=
  "❌ Invalid \"dump\" command, need <elevator> on floor "
    ++ toString ((s.floors.length : Int) - 1) ++ "."

def dumpOkMsg (n : Nat) : String :=
  toString n ++ " passengers dumped into the pit."

def closeFailMsg : String :=
  "❌ Invalid \"close\" command, need <elevator>."

def closeOkMsg (i : Nat) : String :=
  "🔒 Forcibly closed elevator " ++ toString i
    ++ String.singleton (Char.ofNat 39) ++ "s door."

def invalidMsg (action : List Char) : String :=
  "❌ Invalid action: \"" ++ String.mk action ++ "\"."

-- --- Game logic ---

/-- `handleDebark` of sim.ts: scoring applied when a passenger debarks. -/
def handleDebark (s : State) (p : Passenger) : State :=
  match p.kind with
  | PassengerKind.VIP =>
      { s with score := s.score + 11, events := s.events ++ [vipMsg] }
  | PassengerKind.Mechanic =>
      { s with timeRemaining := s.timeRemaining + 20,
               events := s.events ++ [mechMsg] }
  | PassengerKind.Brick =>
      { s with score := s.score - 5, events := s.events ++ [brickMsg] }
  | PassengerKind.Passenger =>
      { s with score := s.score + 1 }

/-- The doors-open half of the per-elevator step (lines 99-135 of sim.ts).
`e` is `state.elevators[i]`.  A `none` result is the JS crash that would
occur on dereferencing `state.floors[elevator.floor]` when `elevator.floor`
is out of range (the source reads that element lazily: the debark branch
never dereferences it). -/
def doorsOpenStep (s : State) (i : Nat) (e : Elevator) : Option State :=
  if e.passengers.any (fun p => p.targetFloor == e.floor) then
    match e.passengers with
    | [] => some s
    | p :: rest =>
      let s1 := { s with elevators := s.elevators.set i { e with passengers := rest } }
      if p.targetFloor == e.floor then
        some (handleDebark { s1 with events := s1.events ++ [dropMsg i] } p)
      else
        match s.floors.get? e.floor with
        | none => none
        | some fl =>
          some { s1 with floors := s1.floors.set e.floor { passengers := p :: fl.passengers } }
  else
    match s.floors.get? e.floor with
    | none => none
    | some fl =>
      if 0 < fl.passengers.length && e.passengers.length < e.capacity then
        match fl.passengers with
        | [] => some s
        | q :: qrest =>
          let newPs := q :: e.passengers
          some { s with
                 elevators := s.elevators.set i { e with passengers := newPs },
                 floors := s.floors.set e.floor { passengers := qrest },
                 events := if newPs.length == e.capacity
                           then s.events ++ [fullMsg i] else s.events }
      else
        some { s with
               elevators := s.elevators.set i { e with doorsOpen := false },
               events := if e.goingTo.isEmpty
                         then s.events ++ [readyMsg i] else s.events }

/-- The doors-closed half of the per-elevator step (lines 136-145 of sim.ts). -/
def doorsClosedStep (s : State) (i : Nat) (e : Elevator) : State :=
  match e.goingTo with
  | [] => s
  | d :: ds =>
    if d == e.floor then
      { s with elevators := s.elevators.set i { e with goingTo := ds, doorsOpen := true } }
    else if d < e.floor then
      { s with elevators := s.elevators.set i { e with floor := e.floor - 1 } }
    else
      { s with elevators := s.elevators.set i { e with floor := e.floor + 1 } }

/-- One iteration of the per-elevator loop of `update` for index `i`. -/
def stepElevator (s : State) (i : Nat) : Option State :=
  match s.elevators.get? i with
  | none => some s
  | some e =>
    if e.doorsOpen then doorsOpenStep s i e else some (doorsClosedStep s i e)

/-- The per-elevator loop of `update`, over the list of indices. -/
def stepElevators : State → List Nat → Option State
  | s, [] => some s
  | s, i :: is =>
    match stepElevator s i with
    | none => none
    | some s' => stepElevators s' is

/-- The arrival block of `update` (lines 149-180 of sim.ts), driven by the
random outcomes in `r`.  `none` is the fatal invalid-roll error or the crash
on an out-of-range `state.floors[originFloor]`. -/
def arrivalStep (s : State) (r : Rnd) : Option State :=
  if r.arrive then
    let targetFloor := if r.targetDraw ≥ r.originFloor then r.targetDraw + 1 else r.targetDraw
    match drawKind r.roll passengerPool with
    | none => none
    | some k =>
      match s.floors.get? r.originFloor with
      | none => none
      | some fl =>
        some { s with
               floors := s.floors.set r.originFloor
                 { passengers := fl.passengers ++ [makePassenger k targetFloor] },
               events := s.events ++ [arrivalMsg r.originFloor] }
  else
    some s

/-- `update` of sim.ts: one tick. -/
def update (s : State) (r : Rnd) : Option State :=
  let s1 := { s with timeRemaining := s.timeRemaining - 1 }
  match stepElevators s1 (List.range s1.elevators.length) with
  | none => none
  | some s2 =>
    match arrivalStep s2 r with
    | none => none
    | some s3 =>
      if s3.timeRemaining ≤ 0 then
        some { s3 with failed := true, events := s3.events ++ [timeoutMsg s3.score] }
      else
        some s3

/-- `update` iterated `n` times with the same random outcomes each tick. -/
def iterUpdate : Nat → Rnd → State → Option State
  | 0, _, s => some s
  | n + 1, r, s =>
    match update s r with
    | none => none
    | some s' => iterUpdate n r s'

-- --- Command parsing ---

/-- `action.split(" ")` of JS on a character list: splitting on a single
space, keeping empty fragments, and yielding one empty fragment for the
empty string. -/
def splitOnSpace : List Char → List (List Char)
  | [] => [[]]
  | c :: cs =>
    if c = ' ' then [] :: splitOnSpace cs
    else
      match splitOnSpace cs with
      | [] => [[c]]
      | w :: ws => (c :: w) :: ws

/-- Decimal-digit accumulation of `parseInt(x, 10)`: consume leading digits,
stop at the first non-digit. -/
def parseDigitsAux : List Char → Nat → Nat
  | [], acc => acc
  | c :: cs, acc =>
    if c.isDigit then parseDigitsAux cs (acc * 10 + (c.toNat - 48)) else acc

/-- JS `parseInt(x, 10)`: skip leading whitespace, an optional sign, then
parse leading decimal digits, ignoring any trailing characters; `none` is
`NaN` (no digits found).  In particular `parseIntJs "1.5"` is `some 1`. -/
def parseIntJs (w : List Char) : Option Int :=
  let t := w.dropWhile (fun c => c.isWhitespace)
  match t with
  | [] => none
  | c :: cs =>
    if c = '-' then
      match cs with
      | d :: _ => if d.isDigit then some (-(parseDigitsAux cs 0 : Int)) else none
      | [] => none
    else if c = '+' then
      match cs with
      | d :: _ => if d.isDigit then some ((parseDigitsAux cs 0 : Int)) else none
      | [] => none
    else if c.isDigit then some ((parseDigitsAux t 0 : Int)) else none

/-- Parse every fragment or fail, as the `.map` with a throwing callback does. -/
def parseAll : List (List Char) → Option (List Int)
  | [] => some []
  | w :: ws =>
    match parseIntJs w, parseAll ws with
    | some n, some ns => some (n :: ns)
    | _, _ => none

/-- `action.split(" ").slice(1).map(parseInt...)` with `none` for a thrown
`NaN` error. -/
def parseArgsJs (action : List Char) : Option (List Int) :=
  parseAll ((splitOnSpace action).drop 1)

/-- JS `String.prototype.startsWith` on character lists (pattern first). -/
def strLeads : List Char → List Char → Bool
  | [], _ => true
  | _ :: _, [] => false
  | p :: ps, c :: cs => p == c && strLeads ps cs

def goChars : List Char := ['g', 'o']

def dumpChars : List Char := ['d', 'u', 'm', 'p']

def closeChars : List Char := ['c', 'l', 'o', 's', 'e']

/-- The validation of the `go` branch of `handleAction` (lines 194-210 of
sim.ts): `none` means some check threw and the `catch` branch runs. -/
def goParse (s : State) (action : List Char) : Option (Nat × Nat) :=
  match parseArgsJs action with
  | some [a, b] =>
    if a ≥ (s.elevators.length : Int) ∨ b ≥ (s.floors.length : Int) then none
    else if a < 0 ∨ b < 0 then none
    else some (a.toNat, b.toNat)
  | _ => none

/-- The whole `go` branch: on validated arguments push the target floor onto
the elevator's queue, otherwise append the failure event. -/
def applyGoCmd (s : State) (action : List Char) : State :=
  match goParse s action with
  | some (a, b) =>
    match s.elevators.get? a with
    | some e => { s with elevators := s.elevators.set a { e with goingTo := e.goingTo ++ [b] } }
    | none => s
  | none => { s with events := s.events ++ [goFailMsg] }

/-- The validation of the `dump` branch (lines 218-232 of sim.ts), including
the last-floor restriction, which is inside the `try` block. -/
def dumpParse (s : State) (action : List Char) : Option Nat :=
  match parseArgsJs action with
  | some [a] =>
    if a < 0 ∨ a ≥ (s.elevators.length : Int) then none
    else
      match s.elevators.get? a.toNat with
      | none => none
      | some e => if e.floor < s.floors.length - 1 then none else some a.toNat
  | _ => none

/-- The whole `dump` branch: the event is logged with the pre-dump passenger
count, then the onboard list is emptied. -/
def applyDumpCmd (s : State) (action : List Char) : State :=
  match dumpParse s action with
  | some a =>
    match s.elevators.get? a with
    | some e =>
      { s with events := s.events ++ [dumpOkMsg e.passengers.length],
               elevators := s.elevators.set a { e with passengers := [] } }
    | none => s
  | none => { s with events := s.events ++ [dumpFailMsg s] }

/-- The validation of the `close` branch (lines 244-255 of sim.ts). -/
def closeParse (s : State) (action : List Char) : Option Nat :=
  match parseArgsJs action with
  | some [a] =>
    if a < 0 ∨ a ≥ (s.elevators.length : Int) then none else some a.toNat
  | _ => none

/-- The whole `close` branch: log the forced closure, then close the doors. -/
def applyCloseCmd (s : State) (action : List Char) : State :=
  match closeParse s action with
  | some a =>
    match s.elevators.get? a with
    | some e =>
      { s with events := s.events ++ [closeOkMsg a],
               elevators := s.elevators.set a { e with doorsOpen := false } }
    | none => s
  | none => { s with events := s.events ++ [closeFailMsg] }

/-- `handleAction` of sim.ts.  The action is the raw string (as characters);
dispatch is by `startsWith` on the prefixes `"go"`, `"dump"`, `"close"`,
checked in that order, with the empty action meaning one tick. -/
def handleAction (s : State) (action : List Char) (r : Rnd) : Option State :=
  if action = [] then update s r
  else if strLeads goChars action then some (applyGoCmd s action)
  else if strLeads dumpChars action then some (applyDumpCmd s action)
  else if strLeads closeChars action then some (applyCloseCmd s action)
  else some { s with events := s.events ++ [invalidMsg action] }

-- --- Observations used by the claims ---

/-- Total number of passengers waiting on a list of floors. -/
def floorCount (fs : List Floor) : Nat :=
  (fs.map (fun f => f.passengers.length)).sum

/-- Total number of passengers on board a list of elevators. -/
def elevCount (es : List Elevator) : Nat :=
  (es.map (fun e => e.passengers.length)).sum

/-- Total number of passengers in the world. -/
def totalPassengers (s : State) : Nat :=
  floorCount s.floors + elevCount s.elevators

/-- An event string records a debark exactly when it is a drop-off event. -/
def isDrop (msg : String) : Bool :=
  strLeads ("🎉".toList) msg.data

/-- Number of drop-off (debark) events in an event list. -/
def dropCount (evs : List String) : Nat :=
  (evs.filter isDrop).length

/-- An event string records a Mechanic debark exactly when it is the
time-bonus event: `handleDebark` appends `mechMsg` exactly once per
Mechanic debark, and no other event starts with its leading character. -/
def isMech (msg : String) : Bool :=
  strLeads ("⏳".toList) msg.data

/-- Number of Mechanic-debark (time-bonus) events in an event list. -/
def mechCount (evs : List String) : Nat :=
  (evs.filter isMech).length

-- --- Helper lemmas ---

theorem sumMap_set {α : Type} (f : α → Nat) :
    ∀ (l : List α) (i : Nat) (e a : α), l.get? i = some e →
      ((l.set i a).map f).sum + f e = (l.map f).sum + f a := by
  intro l
  induction l with
  | nil => intro i e a h; simp at h
  | cons x xs ih =>
    intro i e a h
    cases i with
    | zero =>
      simp only [List.get?] at h
      cases h
      simp [List.set]
      omega
    | succ n =>
      simp only [List.get?] at h
      have := ih n e a h
      simp only [List.set, List.map, List.sum_cons]
      omega

theorem get?_lt {α : Type} (l : List α) (i : Nat) (e : α) (h : l.get? i = some e) :
    i < l.length := by
  rcases List.get?_eq_some.mp h with ⟨hl, _⟩
  exact hl

theorem isDrop_dropMsg (i : Nat) : isDrop (dropMsg i) = true := rfl

theorem isDrop_fullMsg (i : Nat) : isDrop (fullMsg i) = false := rfl

theorem isDrop_readyMsg (i : Nat) : isDrop (readyMsg i) = false := rfl

theorem isDrop_vipMsg : isDrop vipMsg = false := rfl

theorem isDrop_mechMsg : isDrop mechMsg = false := rfl

theorem isDrop_brickMsg : isDrop brickMsg = false := rfl

theorem isDrop_arrivalMsg (n : Nat) : isDrop (arrivalMsg n) = false := rfl

theorem isDrop_timeoutMsg (sc : Int) : isDrop (timeoutMsg sc) = false := rfl

theorem isMech_mechMsg : isMech mechMsg = true := rfl

theorem isMech_dropMsg (i : Nat) : isMech (dropMsg i) = false := rfl

theorem isMech_fullMsg (i : Nat) : isMech (fullMsg i) = false := rfl

theorem isMech_readyMsg (i : Nat) : isMech (readyMsg i) = false := rfl

theorem isMech_vipMsg : isMech vipMsg = false := rfl

theorem isMech_brickMsg : isMech brickMsg = false := rfl

theorem isMech_arrivalMsg (n : Nat) : isMech (arrivalMsg n) = false := rfl

theorem isMech_timeoutMsg (sc : Int) : isMech (timeoutMsg sc) = false := rfl

theorem mechCount_append (evs : List String) (m : String) :
    mechCount (evs ++ [m]) = mechCount evs + (if isMech m then 1 else 0) := by
  simp [mechCount, List.filter_append, List.filter]
  split <;> rename_i hm <;> simp [hm]

/-- Appending the time-bonus event increments `mechCount`. -/
theorem mechCount_append_true (evs : List String) (m : String) (h : isMech m = true) :
    mechCount (evs ++ [m]) = mechCount evs + 1 := by
  rw [mechCount_append, h]
  simp

/-- Appending any other event leaves `mechCount` unchanged. -/
theorem mechCount_append_false (evs : List String) (m : String) (h : isMech m = false) :
    mechCount (evs ++ [m]) = mechCount evs := by
  rw [mechCount_append, h]
  simp

theorem dropCount_append (evs : List String) (m : String) :
    dropCount (evs ++ [m]) = dropCount evs + (if isDrop m then 1 else 0) := by
  simp [dropCount, List.filter_append, List.filter]
  split <;> rename_i hm <;> simp [hm]

/-- Appending a drop-off event increments `dropCount`. -/
theorem dropCount_append_true (evs : List String) (m : String) (h : isDrop m = true) :
    dropCount (evs ++ [m]) = dropCount evs + 1 := by
  rw [dropCount_append, h]
  simp

/-- Appending a non-drop-off event leaves `dropCount` unchanged. -/
theorem dropCount_append_false (evs : List String) (m : String) (h : isDrop m = false) :
    dropCount (evs ++ [m]) = dropCount evs := by
  rw [dropCount_append, h]
  simp

/-- `handleDebark` never touches `failed`, `floors` or `elevators`, adds 20
to `timeRemaining` exactly when it appends the time-bonus event (a Mechanic
debark), and appends no drop-off event. -/
theorem handleDebark_spec (s : State) (p : Passenger) :
    (handleDebark s p).failed = s.failed ∧
    (handleDebark s p).floors = s.floors ∧
    (handleDebark s p).elevators = s.elevators ∧
    (handleDebark s p).timeRemaining + 20 * (mechCount s.events : Int)
      = s.timeRemaining + 20 * (mechCount (handleDebark s p).events : Int) ∧
    dropCount (handleDebark s p).events = dropCount s.events := by
  cases hk : p.kind
  · -- Passenger
    unfold handleDebark
    rw [hk]
    exact ⟨rfl, rfl, rfl, rfl, rfl⟩
  · -- Brick
    unfold handleDebark
    rw [hk]
    try dsimp only
    refine ⟨rfl, rfl, rfl, ?_, ?_⟩
    · rw [mechCount_append_false _ _ isMech_brickMsg]
    · exact dropCount_append_false _ _ isDrop_brickMsg
  · -- VIP
    unfold handleDebark
    rw [hk]
    try dsimp only
    refine ⟨rfl, rfl, rfl, ?_, ?_⟩
    · rw [mechCount_append_false _ _ isMech_vipMsg]
    · exact dropCount_append_false _ _ isDrop_vipMsg
  · -- Mechanic
    unfold handleDebark
    rw [hk]
    try dsimp only
    refine ⟨rfl, rfl, rfl, ?_, ?_⟩
    · rw [mechCount_append_true _ _ isMech_mechMsg]
      push_cast
      ring
    · exact dropCount_append_false _ _ isDrop_mechMsg

theorem elevCount_set (l : List Elevator) (i : Nat) (e e' : Elevator)
    (h : l.get? i = some e) :
    elevCount (l.set i e') + e.passengers.length
      = elevCount l + e'.passengers.length :=
  sumMap_set _ l i e e' h

theorem floorCount_set (l : List Floor) (i : Nat) (f f' : Floor)
    (h : l.get? i = some f) :
    floorCount (l.set i f') + f.passengers.length
      = floorCount l + f'.passengers.length :=
  sumMap_set _ l i f f' h

/-- The doors-open half of the per-elevator step preserves `failed`, adds 20
to `timeRemaining` exactly once per appended time-bonus event (Mechanic
debark), and preserves the passenger count corrected by the number of logged
drop-off events. -/
theorem doorsOpenStep_spec (s : State) (i : Nat) (e : Elevator) (s' : State)
    (he : s.elevators.get? i = some e) (h : doorsOpenStep s i e = some s') :
    s'.failed = s.failed ∧
    s'.timeRemaining + 20 * (mechCount s.events : Int)
      = s.timeRemaining + 20 * (mechCount s'.events : Int) ∧
    totalPassengers s' + dropCount s'.events = totalPassengers s + dropCount s.events := by
  simp only [doorsOpenStep] at h
  split at h
  · -- a passenger on board targets the current floor
    split at h
    · -- onboard list empty: unreachable in this branch, state returned as is
      cases h
      exact ⟨rfl, rfl, rfl⟩
    · rename_i p rest hp
      split at h
      · -- the front passenger debarks
        cases h
        obtain ⟨hf, hfl, hel, ht, hd⟩ := handleDebark_spec
          { s with elevators := s.elevators.set i { e with passengers := rest },
                   events := s.events ++ [dropMsg i] } p
        have hmA := mechCount_append_false s.events (dropMsg i) (isMech_dropMsg i)
        refine ⟨by simpa using hf, by simpa [hmA] using ht, ?_⟩
        have h1 := elevCount_set s.elevators i e { e with passengers := rest } he
        try dsimp only at h1
        rw [hp] at h1
        simp only [List.length_cons] at h1
        simp only [totalPassengers, hfl, hel, hd]
        try dsimp only
        rw [dropCount_append_true _ _ (isDrop_dropMsg i)]
        omega
      · -- the front passenger cannot exit: evicted to the front of the queue
        rename_i hne
        split at h
        · exact absurd h (by simp)
        · rename_i fl hfl
          cases h
          refine ⟨rfl, rfl, ?_⟩
          have h1 := elevCount_set s.elevators i e { e with passengers := rest } he
          try dsimp only at h1
          rw [hp] at h1
          simp only [List.length_cons] at h1
          have h2 := floorCount_set s.floors e.floor fl { passengers := p :: fl.passengers } hfl
          try dsimp only at h2
          simp only [List.length_cons] at h2
          simp only [totalPassengers]
          try dsimp only
          omega
  · -- nobody can debark
    split at h
    · exact absurd h (by simp)
    · rename_i fl hfl
      split at h
      · -- boarding from the front of the floor queue
        split at h
        · cases h
          exact ⟨rfl, rfl, rfl⟩
        · rename_i q qrest hq
          cases h
          have hm : mechCount (if (q :: e.passengers).length == e.capacity
                then s.events ++ [fullMsg i] else s.events) = mechCount s.events := by
            split
            · exact mechCount_append_false _ _ (isMech_fullMsg i)
            · rfl
          refine ⟨rfl, by try dsimp only; rw [hm], ?_⟩
          have h1 := elevCount_set s.elevators i e { e with passengers := q :: e.passengers } he
          try dsimp only at h1
          simp only [List.length_cons] at h1
          have h2 := floorCount_set s.floors e.floor fl { passengers := qrest } hfl
          try dsimp only at h2
          rw [hq] at h2
          simp only [List.length_cons] at h2
          simp only [totalPassengers]
          try dsimp only
          have h3 : dropCount (if (q :: e.passengers).length == e.capacity
                then s.events ++ [fullMsg i] else s.events) = dropCount s.events := by
            split
            · exact dropCount_append_false _ _ (isDrop_fullMsg i)
            · rfl
          rw [h3]
          omega
      · -- nothing to do: close the doors
        cases h
        have hm : mechCount (if e.goingTo.isEmpty
              then s.events ++ [readyMsg i] else s.events) = mechCount s.events := by
          split
          · exact mechCount_append_false _ _ (isMech_readyMsg i)
          · rfl
        refine ⟨rfl, by try dsimp only; rw [hm], ?_⟩
        have h1 := elevCount_set s.elevators i e { e with doorsOpen := false } he
        try dsimp only at h1
        simp only [totalPassengers]
        try dsimp only
        have h3 : dropCount (if e.goingTo.isEmpty
              then s.events ++ [readyMsg i] else s.events) = dropCount s.events := by
          split
          · exact dropCount_append_false _ _ (isDrop_readyMsg i)
          · rfl
        rw [h3]
        omega

/-- The doors-closed half of the per-elevator step only moves the elevator:
`failed`, `timeRemaining`, the event log and the passenger containers keep
their observations. -/
theorem doorsClosedStep_spec (s : State) (i : Nat) (e : Elevator)
    (he : s.elevators.get? i = some e) :
    (doorsClosedStep s i e).failed = s.failed ∧
    (doorsClosedStep s i e).timeRemaining = s.timeRemaining ∧
    (doorsClosedStep s i e).events = s.events ∧
    totalPassengers (doorsClosedStep s i e) + dropCount (doorsClosedStep s i e).events
      = totalPassengers s + dropCount s.events := by
  unfold doorsClosedStep
  split
  · exact ⟨rfl, rfl, rfl, rfl⟩
  · rename_i d ds hgo
    split
    · have h1 := elevCount_set s.elevators i e
        { e with goingTo := ds, doorsOpen := true } he
      try dsimp only at h1
      refine ⟨rfl, rfl, rfl, ?_⟩
      simp only [totalPassengers]
      try dsimp only
      omega
    · split
      · have h1 := elevCount_set s.elevators i e { e with floor := e.floor - 1 } he
        try dsimp only at h1
        refine ⟨rfl, rfl, rfl, ?_⟩
        simp only [totalPassengers]
        try dsimp only
        omega
      · have h1 := elevCount_set s.elevators i e { e with floor := e.floor + 1 } he
        try dsimp only at h1
        refine ⟨rfl, rfl, rfl, ?_⟩
        simp only [totalPassengers]
        try dsimp only
        omega

/-- One iteration of the per-elevator loop preserves `failed`, adds 20 to
`timeRemaining` exactly once per appended time-bonus event, and conserves
passengers up to logged debarks. -/
theorem stepElevator_spec (s : State) (i : Nat) (s' : State)
    (h : stepElevator s i = some s') :
    s'.failed = s.failed ∧
    s'.timeRemaining + 20 * (mechCount s.events : Int)
      = s.timeRemaining + 20 * (mechCount s'.events : Int) ∧
    totalPassengers s' + dropCount s'.events = totalPassengers s + dropCount s.events := by
  unfold stepElevator at h
  split at h
  · cases h
    exact ⟨rfl, rfl, rfl⟩
  · rename_i e he
    split at h
    · exact doorsOpenStep_spec s i e s' he h
    · cases h
      obtain ⟨h1, h2, h4, h3⟩ := doorsClosedStep_spec s i e he
      exact ⟨h1, by rw [h2, h4], h3⟩

/-- The whole per-elevator loop preserves `failed`, adds 20 to
`timeRemaining` exactly once per time-bonus event appended during the loop
(one per Mechanic debark), and conserves passengers up to logged debarks. -/
theorem stepElevators_spec :
    ∀ (l : List Nat) (s s' : State), stepElevators s l = some s' →
      s'.failed = s.failed ∧
      s'.timeRemaining + 20 * (mechCount s.events : Int)
        = s.timeRemaining + 20 * (mechCount s'.events : Int) ∧
      totalPassengers s' + dropCount s'.events
        = totalPassengers s + dropCount s.events := by
  intro l
  induction l with
  | nil =>
    intro s s' h
    cases h
    exact ⟨rfl, rfl, rfl⟩
  | cons i is ih =>
    intro s s' h
    unfold stepElevators at h
    split at h
    · cases h
    · rename_i s1 h1
      obtain ⟨hf1, ht1, hc1⟩ := stepElevator_spec s i s1 h1
      obtain ⟨hf2, ht2, hc2⟩ := ih s1 s' h
      exact ⟨hf2.trans hf1, by omega, by omega⟩

/-- The arrival block preserves `failed`, `timeRemaining` and the
time-bonus event count, and adds one passenger exactly when the arrival
trial succeeded. -/
theorem arrivalStep_spec (s : State) (r : Rnd) (s' : State)
    (h : arrivalStep s r = some s') :
    s'.failed = s.failed ∧
    s'.timeRemaining = s.timeRemaining ∧
    mechCount s'.events = mechCount s.events ∧
    totalPassengers s' + dropCount s'.events
      = totalPassengers s + dropCount s.events + (if r.arrive then 1 else 0) := by
  simp only [arrivalStep] at h
  split at h
  · rename_i harr
    split at h
    · cases h
    · rename_i k hk
      split at h
      · cases h
      · rename_i fl hfl
        cases h
        refine ⟨rfl, rfl,
          by try dsimp only; rw [mechCount_append_false _ _ (isMech_arrivalMsg _)], ?_⟩
        have h2 := floorCount_set s.floors r.originFloor fl
          { passengers := fl.passengers ++
              [makePassenger k (if r.targetDraw ≥ r.originFloor
                                then r.targetDraw + 1 else r.targetDraw)] } hfl
        try dsimp only at h2
        simp only [List.length_append, List.length_cons, List.length_nil] at h2
        simp only [totalPassengers]
        try dsimp only
        rw [dropCount_append_false _ _ (isDrop_arrivalMsg _)]
        simp only [harr, if_true]
        omega
  · rename_i harr
    cases h
    refine ⟨rfl, rfl, rfl, ?_⟩
    simp [harr]

/-- One tick: `timeRemaining` changes by exactly minus 1 plus 20 per
Mechanic debark (Mechanic debarks counted by the time-bonus events appended
during the tick), `failed` ends up true exactly when it already was or the
end-of-tick clock is at or below zero, and passengers are conserved up to
logged debarks and the arrival. -/
theorem update_spec (s : State) (r : Rnd) (s' : State) (h : update s r = some s') :
    (s'.timeRemaining + 20 * (mechCount s.events : Int)
      = s.timeRemaining - 1 + 20 * (mechCount s'.events : Int)) ∧
    (s'.failed = true ↔ (s.failed = true ∨ s'.timeRemaining ≤ 0)) ∧
    totalPassengers s' + dropCount s'.events
      = totalPassengers s + dropCount s.events + (if r.arrive then 1 else 0) := by
  simp only [update] at h
  split at h
  · cases h
  · rename_i s2 h2
    split at h
    · cases h
    · rename_i s3 h3
      obtain ⟨hf2, ht2, hc2⟩ := stepElevators_spec _ _ _ h2
      obtain ⟨hf3, ht3, hm3, hc3⟩ := arrivalStep_spec _ _ _ h3
      try dsimp only at hf2 ht2 hc2
      split at h
      · rename_i hle
        cases h
        have hm4 := mechCount_append_false s3.events (timeoutMsg s3.score) (isMech_timeoutMsg _)
        refine ⟨?_, ?_, ?_⟩
        · try dsimp only
          rw [hm4]
          omega
        · try dsimp only
          simp [hle]
        · simp only [totalPassengers]
          try dsimp only
          rw [dropCount_append_false _ _ (isDrop_timeoutMsg _)]
          simp only [totalPassengers] at hc2 hc3
          try dsimp only at hc2 hc3
          cases hr : r.arrive <;> simp only [hr, if_true, if_false] at hc3 ⊢ <;> omega
      · rename_i hgt
        cases h
        refine ⟨by omega, ?_, ?_⟩
        · rw [hf3, hf2]
          constructor
          · intro hh
            exact Or.inl hh
          · intro hh
            rcases hh with hh | hh
            · exact hh
            · omega
        · simp only [totalPassengers] at hc2 hc3 ⊢
          try dsimp only at hc2 hc3
          cases hr : r.arrive <;> simp only [hr, if_true, if_false] at hc3 ⊢ <;> omega

theorem strLeads_ne_nil (c : Char) (cs action : List Char)
    (h : strLeads (c :: cs) action = true) : action ≠ [] := by
  intro hnil
  subst hnil
  simp [strLeads] at h

theorem strLeads_dump_not_go (action : List Char)
    (h : strLeads dumpChars action = true) : strLeads goChars action = false := by
  cases action with
  | nil => simp [dumpChars, strLeads] at h
  | cons c cs =>
    have hc : ('d' == c) = true := by
      simp only [dumpChars, strLeads, Bool.and_eq_true] at h
      exact h.1
    have hc' : c = 'd' := (beq_iff_eq.mp hc).symm
    subst hc'
    simp [goChars, strLeads]

theorem strLeads_close_not_go (action : List Char)
    (h : strLeads closeChars action = true) : strLeads goChars action = false := by
  cases action with
  | nil => simp [closeChars, strLeads] at h
  | cons c cs =>
    have hc : ('c' == c) = true := by
      simp only [closeChars, strLeads, Bool.and_eq_true] at h
      exact h.1
    have hc' : c = 'c' := (beq_iff_eq.mp hc).symm
    subst hc'
    simp [goChars, strLeads]

theorem strLeads_close_not_dump (action : List Char)
    (h : strLeads closeChars action = true) : strLeads dumpChars action = false := by
  cases action with
  | nil => simp [closeChars, strLeads] at h
  | cons c cs =>
    have hc : ('c' == c) = true := by
      simp only [closeChars, strLeads, Bool.and_eq_true] at h
      exact h.1
    have hc' : c = 'c' := (beq_iff_eq.mp hc).symm
    subst hc'
    simp [dumpChars, strLeads]

theorem applyGoCmd_failed (s : State) (a : List Char) :
    (applyGoCmd s a).failed = s.failed := by
  unfold applyGoCmd
  split
  · split <;> rfl
  · rfl

theorem applyDumpCmd_failed (s : State) (a : List Char) :
    (applyDumpCmd s a).failed = s.failed := by
  unfold applyDumpCmd
  split
  · split <;> rfl
  · rfl

theorem applyCloseCmd_failed (s : State) (a : List Char) :
    (applyCloseCmd s a).failed = s.failed := by
  unfold applyCloseCmd
  split
  · split <;> rfl
  · rfl

/-- The `go` branch of `handleAction` on validated arguments: the target
floor is pushed onto the selected elevator's destination queue. -/
theorem handleAction_go_ok (s : State) (action : List Char) (r : Rnd)
    (a b : Int) (e : Elevator)
    (hgo : strLeads goChars action = true)
    (hparse : parseArgsJs action = some [a, b])
    (ha0 : 0 ≤ a) (ha : a < (s.elevators.length : Int))
    (hb0 : 0 ≤ b) (hb : b < (s.floors.length : Int))
    (he : s.elevators.get? a.toNat = some e) :
    handleAction s action r = some { s with
      elevators := s.elevators.set a.toNat { e with goingTo := e.goingTo ++ [b.toNat] } } := by
  have hne : action ≠ [] := strLeads_ne_nil 'g' ['o'] action (by simpa [goChars] using hgo)
  have hparse' : goParse s action = some (a.toNat, b.toNat) := by
    unfold goParse
    rw [hparse]
    try dsimp only
    rw [if_neg (by omega), if_neg (by omega)]
  simp only [handleAction, if_neg hne, hgo, if_true, applyGoCmd, hparse', he]

-- --- Concrete states for counterexamples and witnesses ---

def cfg0 : Config := { arrivalRate := Rat.mk' 1 2 }

/-- Random outcomes of a tick in which no passenger arrives. -/
def noArr : Rnd := { arrive := false, originFloor := 0, targetDraw := 0, roll := 0 }

/-- One elevator at floor 0 with doors open carrying a Mechanic whose target
is floor 0, clock at 5: the Mechanic debarks during the next tick. -/
def c1state : State :=
  { config := cfg0, score := 0, failed := false, timeRemaining := 5,
    floors := [{ passengers := [] }],
    elevators := [{ floor := 0, doorsOpen := true, goingTo := [], capacity := 5,
                    passengers := [{ kind := PassengerKind.Mechanic, targetFloor := 0 }] }],
    events := [] }

/-- C1: the claim is FALSE as stated.  On `c1state` the tick debarks a
Mechanic, so `timeRemaining` goes from 5 to 5 - 1 + 20 = 24: it does not
decrease by exactly 1 net across the tick. -/
theorem C1_counterexample :
    (update c1state noArr).map (fun t => t.timeRemaining) = some 24 ∧
    ¬ ((update c1state noArr).map (fun t => t.timeRemaining)
        = some (c1state.timeRemaining - 1)) := by
  decide

/-- C1 (amended): across a tick `timeRemaining` changes by exactly -1 plus
20 for each Mechanic debarked during the tick — Mechanic debarks counted by
the time-bonus events (`mechMsg`) the tick appends, which `handleDebark`
emits exactly once per Mechanic debark — and `failed` ends the tick true if
and only if it already was true or the end-of-tick `timeRemaining` (after
any Mechanic bonuses) is ≤ 0. -/
theorem C1_amended (s : State) (r : Rnd) (s' : State) (h : update s r = some s') :
    (s'.timeRemaining + 20 * (mechCount s.events : Int)
      = s.timeRemaining - 1 + 20 * (mechCount s'.events : Int)) ∧
    (s'.failed = true ↔ (s.failed = true ∨ s'.timeRemaining ≤ 0)) :=
  ⟨(update_spec s r s' h).1, (update_spec s r s' h).2.1⟩

/-- C1 witness: the amended claim evaluated on the Mechanic tick, where the
clock moves 5 → 24 and exactly one time-bonus event is appended. -/
theorem C1_amended_witness :
    (((update c1state noArr).getD c1state).timeRemaining
        + 20 * (mechCount c1state.events : Int)
      = c1state.timeRemaining - 1
        + 20 * (mechCount ((update c1state noArr).getD c1state).events : Int)) ∧
    (((update c1state noArr).getD c1state).failed = true ↔
      (c1state.failed = true ∨
        ((update c1state noArr).getD c1state).timeRemaining ≤ 0)) :=
  C1_amended c1state noArr ((update c1state noArr).getD c1state) (by rfl)

/-- A state that has already failed, with time still on the clock. -/
def c2state : State :=
  { config := cfg0, score := 0, failed := true, timeRemaining := 10,
    floors := [], elevators := [], events := [] }

/-- C2: the claim is FALSE as stated.  `update` never checks `failed`:
ticking the already-failed `c2state` still decrements `timeRemaining`
from 10 to 9. -/
theorem C2_counterexample :
    c2state.failed = true ∧
    (update c2state noArr).map (fun t => t.timeRemaining) = some 9 ∧
    ¬ ((update c2state noArr).map (fun t => t.timeRemaining)
        = some c2state.timeRemaining) := by
  decide

/-- C2 (amended): once `failed` is true it is never cleared by a tick or by
any command — but the engine does not stop mutating the rest of the state
(the counterexample shows `timeRemaining` still changes); only the caller's
loop stops ticking. -/
theorem C2_amended (s : State) (a : List Char) (r : Rnd) (s' : State)
    (hfail : s.failed = true) :
    (update s r = some s' → s'.failed = true) ∧
    (handleAction s a r = some s' → s'.failed = true) := by
  constructor
  · intro h
    exact ((update_spec s r s' h).2.1).mpr (Or.inl hfail)
  · intro h
    unfold handleAction at h
    split at h
    · exact ((update_spec s r s' h).2.1).mpr (Or.inl hfail)
    · split at h
      · cases h
        rw [applyGoCmd_failed]
        exact hfail
      · split at h
        · cases h
          rw [applyDumpCmd_failed]
          exact hfail
        · split at h
          · cases h
            rw [applyCloseCmd_failed]
            exact hfail
          · cases h
            exact hfail

/-- C2 witness: the amended claim evaluated on the failed state. -/
theorem C2_amended_witness :
    ((update c2state noArr).getD c2state).failed = true :=
  (C2_amended c2state [] noArr ((update c2state noArr).getD c2state) (by rfl)).1 (by rfl)

/-- One elevator with destination queue `[3]`, doors closed, at floor 0. -/
def c4state : State :=
  { config := cfg0, score := 0, failed := false, timeRemaining := 100,
    floors := [{ passengers := [] }, { passengers := [] },
               { passengers := [] }, { passengers := [] }],
    elevators := [{ floor := 0, doorsOpen := false, goingTo := [3], capacity := 5,
                    passengers := [] }],
    events := [] }

/-- C4: the claim is FALSE as stated.  After exactly 3 ticks the elevator is
at floor 3 but its doors are still closed and the destination queue still
holds `[3]` — not doors open with an empty queue as claimed. -/
theorem C4_counterexample :
    ((iterUpdate 3 noArr c4state).bind (fun t => t.elevators.get? 0)).map
        (fun e => (e.floor, e.doorsOpen, e.goingTo)) = some (3, false, [3]) ∧
    ¬ (((iterUpdate 3 noArr c4state).bind (fun t => t.elevators.get? 0)).map
        (fun e => (e.floor, e.doorsOpen, e.goingTo)) = some (3, true, ([] : List Nat))) := by
  decide

/-- C4 (amended): after 3 ticks the elevator has reached floor 3 but the
doors are still closed and the destination still queued; the doors open and
the queue empties on the 4th tick. -/
theorem C4_amended :
    ((iterUpdate 3 noArr c4state).bind (fun t => t.elevators.get? 0)).map
        (fun e => (e.floor, e.doorsOpen, e.goingTo)) = some (3, false, [3]) ∧
    ((iterUpdate 4 noArr c4state).bind (fun t => t.elevators.get? 0)).map
        (fun e => (e.floor, e.doorsOpen, e.goingTo)) = some (3, true, []) := by
  decide

/-- C3: in the Doors-Open step, when some onboard passenger targets the
current floor but the front one does not, the front passenger is removed
from the elevator and pushed onto the front of the current floor's waiting
queue; the resulting state differs from `s` in nothing else, so no scoring
(and no event) is applied. -/
theorem C3_eviction (s : State) (i : Nat) (e : Elevator) (p : Passenger)
    (rest : List Passenger) (fl : Floor)
    (he : s.elevators.get? i = some e)
    (hdo : e.doorsOpen = true)
    (hp : e.passengers = p :: rest)
    (hfront : p.targetFloor ≠ e.floor)
    (hmatch : rest.any (fun q => q.targetFloor == e.floor) = true)
    (hfl : s.floors.get? e.floor = some fl) :
    stepElevator s i = some { s with
      elevators := s.elevators.set i { e with passengers := rest },
      floors := s.floors.set e.floor { passengers := p :: fl.passengers } } := by
  have hfb : (p.targetFloor == e.floor) = false := by
    simp [hfront]
  have hany : e.passengers.any (fun q => q.targetFloor == e.floor) = true := by
    rw [hp]
    simp only [List.any_cons, hmatch, Bool.or_true]
  unfold stepElevator
  rw [he]
  try dsimp only
  rw [if_pos hdo]
  unfold doorsOpenStep
  rw [hany]
  simp only [if_true]
  rw [hp]
  simp only [hfb, Bool.false_eq_true, if_false]
  rw [hfl]

/-- Concrete instance for the C3 witness: elevator 0 at floor 1, doors open,
front passenger targets floor 0 while the second targets floor 1. -/
def w3state : State :=
  { config := cfg0, score := 3, failed := false, timeRemaining := 50,
    floors := [{ passengers := [] },
               { passengers := [{ kind := PassengerKind.VIP, targetFloor := 0 }] }],
    elevators := [{ floor := 1, doorsOpen := true, goingTo := [0], capacity := 5,
                    passengers := [{ kind := PassengerKind.Passenger, targetFloor := 0 },
                                   { kind := PassengerKind.Passenger, targetFloor := 1 }] }],
    events := [] }

def w3elev : Elevator :=
  { floor := 1, doorsOpen := true, goingTo := [0], capacity := 5,
    passengers := [{ kind := PassengerKind.Passenger, targetFloor := 0 },
                   { kind := PassengerKind.Passenger, targetFloor := 1 }] }

/-- C3 witness: the eviction theorem evaluated on `w3state`. -/
theorem C3_eviction_witness :
    stepElevator w3state 0 = some { w3state with
      elevators := w3state.elevators.set 0
        { w3elev with passengers := [{ kind := PassengerKind.Passenger, targetFloor := 1 }] },
      floors := w3state.floors.set w3elev.floor
        { passengers := { kind := PassengerKind.Passenger, targetFloor := 0 } ::
            ({ passengers := [{ kind := PassengerKind.VIP, targetFloor := 0 }] } : Floor).passengers } } :=
  C3_eviction w3state 0 w3elev
    { kind := PassengerKind.Passenger, targetFloor := 0 }
    [{ kind := PassengerKind.Passenger, targetFloor := 1 }]
    { passengers := [{ kind := PassengerKind.VIP, targetFloor := 0 }] }
    (by rfl) (by rfl) (by rfl) (by decide) (by decide) (by rfl)

/-- C5 (amended): whenever a command's validation fails — integer parsing in
the JS `parseInt` sense (an argument with no leading integer part), wrong
argument count, out-of-range index, or `dump` away from the last floor —
`handleAction` returns the state unchanged except for exactly one appended
failure event; an unrecognized action likewise only appends its failure
event.  (As stated the claim is false: `parseInt` truncates, so a
fractional argument such as `1.5` is accepted as `1` and the command
mutates state; see the counterexample.) -/
theorem C5_amended (s : State) (action : List Char) (r : Rnd) (hne : action ≠ []) :
    (strLeads goChars action = true → goParse s action = none →
      handleAction s action r = some { s with events := s.events ++ [goFailMsg] }) ∧
    (strLeads goChars action = false → strLeads dumpChars action = true →
      dumpParse s action = none →
      handleAction s action r = some { s with events := s.events ++ [dumpFailMsg s] }) ∧
    (strLeads goChars action = false → strLeads dumpChars action = false →
      strLeads closeChars action = true → closeParse s action = none →
      handleAction s action r = some { s with events := s.events ++ [closeFailMsg] }) ∧
    (strLeads goChars action = false → strLeads dumpChars action = false →
      strLeads closeChars action = false →
      handleAction s action r = some { s with events := s.events ++ [invalidMsg action] }) := by
  refine ⟨?_, ?_, ?_, ?_⟩
  · intro hgo hparse
    simp only [handleAction, if_neg hne, hgo, if_true, applyGoCmd, hparse]
  · intro hgo hdmp hparse
    simp only [handleAction, if_neg hne, hgo, Bool.false_eq_true, if_false,
      hdmp, if_true, applyDumpCmd, hparse]
  · intro hgo hdmp hcl hparse
    simp only [handleAction, if_neg hne, hgo, hdmp, Bool.false_eq_true, if_false,
      hcl, if_true, applyCloseCmd, hparse]
  · intro hgo hdmp hcl
    simp only [handleAction, if_neg hne, hgo, hdmp, hcl, Bool.false_eq_true, if_false]

/-- A pristine world used by the command counterexamples and witnesses. -/
def c5state : State :=
  { config := cfg0, score := 0, failed := false, timeRemaining := 100,
    floors := [{ passengers := [] }, { passengers := [] }],
    elevators := [{ floor := 0, doorsOpen := false, goingTo := [], capacity := 5,
                    passengers := [] }],
    events := [] }

def c5act : List Char := "go 0 1.5".toList

/-- C5: the claim is FALSE as stated.  The action `go 0 1.5` carries the
non-integer argument `1.5`, yet the command is not rejected: `parseInt`
truncates it to `1`, the state mutates (elevator 0 gains destination 1) and
no failure event is appended. -/
theorem C5_counterexample :
    handleAction c5state c5act noArr = some { c5state with
      elevators := [{ floor := 0, doorsOpen := false, goingTo := [1], capacity := 5,
                      passengers := [] }] } ∧
    ¬ (handleAction c5state c5act noArr
        = some { c5state with events := c5state.events ++ [goFailMsg] }) := by
  decide

def w5act : List Char := "go x".toList

/-- C5 witness: the amended claim evaluated on the malformed action `go x`. -/
theorem C5_amended_witness :
    handleAction c5state w5act noArr
      = some { c5state with events := c5state.events ++ [goFailMsg] } :=
  ((C5_amended c5state w5act noArr (by decide)).1) (by decide) (by decide)

/-- C6: a `dump` with a valid elevator index, on a state satisfying the
floor invariant: away from the last floor it is a no-op except for exactly
one appended failure event; at the last floor the onboard list empties, the
score (and everything else but the log and that list) is unchanged, and the
dump event is logged with the pre-dump passenger count. -/
theorem C6_dump (s : State) (action : List Char) (r : Rnd) (a : Int) (e : Elevator)
    (hd : strLeads dumpChars action = true)
    (hparse : parseArgsJs action = some [a])
    (ha0 : 0 ≤ a) (halt : a < (s.elevators.length : Int))
    (he : s.elevators.get? a.toNat = some e)
    (hfloor : e.floor < s.floors.length) :
    (e.floor + 1 ≠ s.floors.length →
      handleAction s action r = some { s with events := s.events ++ [dumpFailMsg s] }) ∧
    (e.floor + 1 = s.floors.length →
      handleAction s action r = some { s with
        events := s.events ++ [dumpOkMsg e.passengers.length],
        elevators := s.elevators.set a.toNat { e with passengers := [] } }) := by
  have hne : action ≠ [] := strLeads_ne_nil 'd' ['u', 'm', 'p'] action (by simpa [dumpChars] using hd)
  have hgo : strLeads goChars action = false := strLeads_dump_not_go action hd
  have hact : handleAction s action r = some (applyDumpCmd s action) := by
    simp only [handleAction, if_neg hne, hgo, Bool.false_eq_true, if_false, hd, if_true]
  constructor
  · intro hlast
    have hparse' : dumpParse s action = none := by
      unfold dumpParse
      rw [hparse]
      try dsimp only
      rw [if_neg (by omega), he]
      try dsimp only
      rw [if_pos (by omega)]
    rw [hact]
    simp only [applyDumpCmd, hparse']
  · intro hlast
    have hparse' : dumpParse s action = some a.toNat := by
      unfold dumpParse
      rw [hparse]
      try dsimp only
      rw [if_neg (by omega), he]
      try dsimp only
      rw [if_neg (by omega)]
    rw [hact]
    simp only [applyDumpCmd, hparse', he]

def w6elev : Elevator :=
  { floor := 1, doorsOpen := true, goingTo := [], capacity := 5,
    passengers := [{ kind := PassengerKind.Passenger, targetFloor := 0 },
                   { kind := PassengerKind.VIP, targetFloor := 1 }] }

def w6state : State :=
  { config := cfg0, score := 7, failed := false, timeRemaining := 9,
    floors := [{ passengers := [] }, { passengers := [] }],
    elevators := [w6elev], events := [] }

def w6act : List Char := "dump 0".toList

/-- C6 witness: `dump 0` with the elevator at the last floor of two. -/
theorem C6_dump_witness :
    handleAction w6state w6act noArr = some { w6state with
      events := w6state.events ++ [dumpOkMsg w6elev.passengers.length],
      elevators := w6state.elevators.set (0 : Int).toNat { w6elev with passengers := [] } } :=
  (C6_dump w6state w6act noArr 0 w6elev (by decide) (by decide) (by decide)
    (by decide) (by rfl) (by decide)).2 (by decide)

/-- C7: a `go` command with validated arguments appends the target floor at
the back of the selected elevator's destination queue (length +1), and
leaves every other elevator, the floors, the score, the clock and the
failure flag unchanged. -/
theorem C7_go (s : State) (action : List Char) (r : Rnd) (a b : Int) (e : Elevator)
    (hgo : strLeads goChars action = true)
    (hparse : parseArgsJs action = some [a, b])
    (ha0 : 0 ≤ a) (ha : a < (s.elevators.length : Int))
    (hb0 : 0 ≤ b) (hb : b < (s.floors.length : Int))
    (he : s.elevators.get? a.toNat = some e) :
    handleAction s action r = some { s with
      elevators := s.elevators.set a.toNat { e with goingTo := e.goingTo ++ [b.toNat] } } ∧
    ({ e with goingTo := e.goingTo ++ [b.toNat] } : Elevator).goingTo.length
      = e.goingTo.length + 1 ∧
    (s.elevators.set a.toNat { e with goingTo := e.goingTo ++ [b.toNat] }).get? a.toNat
      = some { e with goingTo := e.goingTo ++ [b.toNat] } ∧
    (∀ j, j ≠ a.toNat →
      (s.elevators.set a.toNat { e with goingTo := e.goingTo ++ [b.toNat] }).get? j
        = s.elevators.get? j) ∧
    ({ s with elevators := s.elevators.set a.toNat { e with goingTo := e.goingTo ++ [b.toNat] } } : State).floors = s.floors ∧
    ({ s with elevators := s.elevators.set a.toNat { e with goingTo := e.goingTo ++ [b.toNat] } } : State).score = s.score ∧
    ({ s with elevators := s.elevators.set a.toNat { e with goingTo := e.goingTo ++ [b.toNat] } } : State).timeRemaining = s.timeRemaining ∧
    ({ s with elevators := s.elevators.set a.toNat { e with goingTo := e.goingTo ++ [b.toNat] } } : State).failed = s.failed := by
  refine ⟨handleAction_go_ok s action r a b e hgo hparse ha0 ha hb0 hb he,
    by simp, ?_, ?_, rfl, rfl, rfl, rfl⟩
  · rw [List.get?_set_eq, he]
    rfl
  · intro j hj
    exact List.get?_set_ne _ _ (fun hh => hj hh.symm)

def w7elev : Elevator :=
  { floor := 0, doorsOpen := false, goingTo := [], capacity := 5, passengers := [] }

def w7act : List Char := "go 0 1".toList

/-- C7 witness: `go 0 1` on a one-elevator, two-floor world. -/
theorem C7_go_witness :
    handleAction c5state w7act noArr = some { c5state with
      elevators := c5state.elevators.set (0 : Int).toNat
        { w7elev with goingTo := w7elev.goingTo ++ [(1 : Int).toNat] } } :=
  (C7_go c5state w7act noArr 0 1 w7elev (by decide) (by decide) (by decide)
    (by decide) (by decide) (by decide) (by rfl)).1

/-- C8: across one tick the total passenger count over all floors and all
elevators changes exactly by +1 for the arrival (when the trial succeeded)
and -1 for each debark, where debarks are counted by the drop-off events
appended during the tick; boarding and eviction move passengers between
containers without creating or destroying any. -/
theorem C8_conservation (s : State) (r : Rnd) (s' : State) (h : update s r = some s') :
    totalPassengers s' + dropCount s'.events
      = totalPassengers s + dropCount s.events + (if r.arrive then 1 else 0) :=
  (update_spec s r s' h).2.2

def w8r : Rnd := { arrive := true, originFloor := 0, targetDraw := 0, roll := 0 }

def w8state : State :=
  { config := cfg0, score := 0, failed := false, timeRemaining := 40,
    floors := [{ passengers := [] }], elevators := [], events := [] }

/-- C8 witness: a tick with a successful arrival on an empty world. -/
theorem C8_conservation_witness :
    totalPassengers ((update w8state w8r).getD w8state)
        + dropCount ((update w8state w8r).getD w8state).events
      = totalPassengers w8state + dropCount w8state.events
        + (if w8r.arrive then 1 else 0) :=
  C8_conservation w8state w8r ((update w8state w8r).getD w8state) (by rfl)

/-- C9: for every roll below the total weight 14, the weighted-draw walk
selects some kind and never `Brick` (weight 0); consequently the fatal
no-entry-selected branch of the arrival step is unreachable for in-range
rolls (and in-range origin floors). -/
theorem C9_draw :
    (∀ roll, roll < passengerPoolTotal →
      (drawKind roll passengerPool).isSome = true ∧
      drawKind roll passengerPool ≠ some PassengerKind.Brick) ∧
    (∀ (s : State) (r : Rnd), r.arrive = true → r.roll < passengerPoolTotal →
      r.originFloor < s.floors.length → (arrivalStep s r).isSome = true) := by
  constructor
  · decide
  · intro s r harr hroll hor
    have hall : ∀ roll, roll < passengerPoolTotal →
        (drawKind roll passengerPool).isSome = true := by decide
    obtain ⟨k, hk⟩ := Option.isSome_iff_exists.mp (hall r.roll hroll)
    obtain ⟨fl, hfl⟩ : ∃ fl, s.floors.get? r.originFloor = some fl :=
      ⟨s.floors.get ⟨r.originFloor, hor⟩, List.get?_eq_get hor⟩
    simp only [arrivalStep, harr, if_true, hk, hfl, Option.isSome_some]

def w9r : Rnd := { arrive := true, originFloor := 0, targetDraw := 0, roll := 5 }

def w9state : State :=
  { config := cfg0, score := 0, failed := false, timeRemaining := 3,
    floors := [{ passengers := [] }], elevators := [], events := [] }

/-- C9 witness: roll 5 selects a kind, and the arrival step succeeds. -/
theorem C9_draw_witness :
    (drawKind 5 passengerPool).isSome = true ∧
    (arrivalStep w9state w9r).isSome = true :=
  ⟨(C9_draw.1 5 (by decide)).1, C9_draw.2 w9state w9r rfl (by decide) (by decide)⟩

def gone12 : List Char := "gone 1 2".toList

/-- C10: command dispatch matches only on string prefix: any non-empty
action starting with `go` (resp. `dump`, `close`) is handled by that
command's branch; in particular `gone 1 2` with valid indices is applied
as go(1,2) — elevator 1 gains destination 2 — rather than rejected. -/
theorem C10_dispatch :
    (∀ (s : State) (action : List Char) (r : Rnd), action ≠ [] →
        strLeads goChars action = true →
        handleAction s action r = some (applyGoCmd s action)) ∧
    (∀ (s : State) (action : List Char) (r : Rnd), action ≠ [] →
        strLeads goChars action = false → strLeads dumpChars action = true →
        handleAction s action r = some (applyDumpCmd s action)) ∧
    (∀ (s : State) (action : List Char) (r : Rnd), action ≠ [] →
        strLeads goChars action = false → strLeads dumpChars action = false →
        strLeads closeChars action = true →
        handleAction s action r = some (applyCloseCmd s action)) ∧
    (∀ (s : State) (r : Rnd) (e : Elevator),
        s.elevators.get? 1 = some e → 2 < s.floors.length →
        handleAction s gone12 r = some { s with
          elevators := s.elevators.set 1 { e with goingTo := e.goingTo ++ [2] } }) := by
  refine ⟨?_, ?_, ?_, ?_⟩
  · intro s action r hne hgo
    simp only [handleAction, if_neg hne, hgo, if_true]
  · intro s action r hne hgo hd
    simp only [handleAction, if_neg hne, hgo, Bool.false_eq_true, if_false, hd, if_true]
  · intro s action r hne hgo hd hc
    simp only [handleAction, if_neg hne, hgo, hd, Bool.false_eq_true, if_false, hc, if_true]
  · intro s r e he hfl
    have h1 : (1 : Nat) < s.elevators.length := get?_lt _ _ _ he
    exact handleAction_go_ok s gone12 r 1 2 e (by decide) (by decide)
      (by omega) (by exact_mod_cast h1) (by omega) (by exact_mod_cast hfl) he

def w10elev : Elevator :=
  { floor := 0, doorsOpen := true, goingTo := [], capacity := 5, passengers := [] }

def w10state : State :=
  { config := cfg0, score := 0, failed := false, timeRemaining := 60,
    floors := [{ passengers := [] }, { passengers := [] }, { passengers := [] }],
    elevators := [{ floor := 1, doorsOpen := false, goingTo := [0], capacity := 5,
                    passengers := [] }, w10elev],
    events := [] }

/-- C10 witness: `gone 1 2` applied on a two-elevator, three-floor world. -/
theorem C10_dispatch_witness :
    handleAction w10state gone12 noArr = some { w10state with
      elevators := w10state.elevators.set 1
        { w10elev with goingTo := w10elev.goingTo ++ [2] } } :=
  C10_dispatch.2.2.2 w10state noArr w10elev (by rfl) (by decide)
